import Mathlib

/-!
Verification development for the SVG color-semantics normalization engine of
the `b2c-icons` repository (`scripts/generate-react-icons.ts`).

The source file contains two variants of the generator.  The current engine
(second variant) consists of `detectColorMode`, `computeNewColor` and
`extractInnerSVG`; the earlier variant additionally has an `isMultiColorIcon`
detector and a "filled" (hybrid) branch in its `extractInnerSVG`.

Two levels of embedding are used:

* a structured document level (`Attr`, `Item`, `SVGDoc`): each shape element
  carries an association list of attributes.  The regex tests of the source
  (`\bfill\s*=\s*["']([^"']*)["']` etc.) are embedded as association-list
  lookups; this is exact for markup whose attribute names and values do not
  themselves embed the probed texts (standard SVG markup).
* a string level (`matchSvgEnvelope`, `scanColorValues`, `replaceShapes`,
  `extractInnerSVGStr`): a character-by-character implementation of the
  regex passes, used for the claims that are inherently about raw strings
  (envelope pass-through, idempotence, the literal scenario of the spec).
-/

/-- The double-quote character (written via its code point to keep string
handling uniform). -/
def quoteD : Char := Char.ofNat 34

/-- The single-quote character. -/
def quoteS : Char := Char.ofNat 39

/-- A word character in the sense of the regex metacharacter `\\b`
(`[A-Za-z0-9_]`). -/
def isWordChar (c : Char) : Bool := c.isAlpha || c.isDigit || c == '_'

/-- A whitespace character in the sense of the regex metacharacter `\\s`. -/
def isWsChar (c : Char) : Bool := c.isWhitespace

/-- Remove leading and trailing whitespace from a character list. -/
def trimChars (l : List Char) : List Char :=
  ((l.dropWhile isWsChar).reverse.dropWhile isWsChar).reverse

/-- The `trim()` of the source, over embedded strings. -/
def strTrim (s : String) : String := String.mk (trimChars s.data)

/-- The `toLowerCase()` of the source (ASCII), over embedded strings. -/
def strLower (s : String) : String := String.mk (s.data.map Char.toLower)

/-- The `startsWith` test of the source, over embedded strings. -/
def strStartsWith (s pre : String) : Bool := pre.data.isPrefixOf s.data

/-- `BLACK_COLORS` of the source: the black color class. -/
def BLACK_COLORS : List String := ["black", "#000", "#000000"]

/-- `WHITE_COLORS` of the source: the white color class. -/
def WHITE_COLORS : List String := ["white", "#fff", "#ffffff"]

/-- `isBlackColor` of the source: membership of the lowercased, trimmed value
in the black class. -/
def isBlackColor (color : String) : Bool :=
  BLACK_COLORS.contains (strTrim (strLower color))

/-- `isWhiteColor` of the source: membership of the lowercased, trimmed value
in the white class. -/
def isWhiteColor (color : String) : Bool :=
  WHITE_COLORS.contains (strTrim (strLower color))

/-- The `'monochrome' | 'colored'` union type returned by `detectColorMode`. -/
inductive CMode where
  | monochrome
  | colored
deriving DecidableEq, Repr

/-- `computeNewColor` of the source: decides what happens to an effective
fill/stroke value.  `none` means the attribute is dropped (the element
inherits the wrapper's color); `some v` means the attribute is set to `v`. -/
def computeNewColor (effectiveColor : String) (colorMode : CMode) : Option String :=
  if strTrim (strLower effectiveColor) = "none" then some "none"
  else if strTrim (strLower effectiveColor) = "currentcolor" then none
  else if isWhiteColor effectiveColor then some "white"
  else if isBlackColor effectiveColor then
    (if colorMode = CMode.colored then some "black" else none)
  else none

/-! ## Structured document level -/

/-- An attribute: name and value. -/
abbrev Attr := String × String

/-- The seven drawable tags the rewriter's element regex matches
(`path|circle|rect|ellipse|polygon|line|polyline`). -/
inductive ShapeTag where
  | path
  | circle
  | rect
  | ellipse
  | polygon
  | line
  | polyline
deriving DecidableEq, Repr

/-- One piece of the inner markup: a shape element, the shape elements inside
a `<defs>` block, or any other markup (for example a `<g …>` tag) that the
shape regex leaves untouched but whose attributes are still visible to the
whole-string color scan of `detectColorMode`. -/
inductive Item where
  | shape (tag : ShapeTag) (attrs : List Attr)
  | defsB (content : List (ShapeTag × List Attr))
  | otherEl (attrs : List Attr)
deriving DecidableEq, Repr

/-- A well-formed `<svg>…</svg>` document: the root tag's attributes and the
inner markup. -/
structure SVGDoc where
  rootAttrs : List Attr
  items : List Item
deriving DecidableEq, Repr

/-- First attribute of the given name, as the source's
`attrs.match(/\bNAME\s*=\s*["']([^"']*)["']/)` finds it. -/
def lookupAttr (attrs : List Attr) (name : String) : Option String :=
  (attrs.find? (fun a => a.1 == name)).map (fun a => a.2)

/-- The fill/stroke values among an attribute list, in order. -/
def attrColorValues (attrs : List Attr) : List String :=
  (attrs.filter (fun a => a.1 == "fill" || a.1 == "stroke")).map (fun a => a.2)

/-- All fill/stroke values of one item, `<defs>` content included (the
classifier regex scans the raw markup, so `<defs>` content is visible). -/
def itemColorValues : Item → List String
  | Item.shape _ attrs => attrColorValues attrs
  | Item.defsB content => content.flatMap (fun p => attrColorValues p.2)
  | Item.otherEl attrs => attrColorValues attrs

/-- All fill/stroke attribute values occurring anywhere in the document
(root tag, shapes, `<defs>` content, other elements), in document order. -/
def colorValuesAll (doc : SVGDoc) : List String :=
  attrColorValues doc.rootAttrs ++ doc.items.flatMap itemColorValues

/-- The values the classifier regex `\b(?:fill|stroke)\s*=\s*["']([^"']+)["']`
actually captures: the capture group requires a nonempty quoted value, so
empty-valued attributes are invisible to the scan. -/
def scannedColorValues (doc : SVGDoc) : List String :=
  (colorValuesAll doc).filter (fun v => v != "")

/-- The body of `detectColorMode`'s loop: a scanned value causes `colored`
when, trimmed and lowercased, it is neither `none` nor `currentcolor` and
belongs to neither the black nor the white class. -/
def scanHit (v : String) : Bool :=
  !(strLower (strTrim v) == "none") && !(strLower (strTrim v) == "currentcolor") &&
    !(isBlackColor (strLower (strTrim v))) && !(isWhiteColor (strLower (strTrim v)))

/-- `detectColorMode` of the source, over the structured document: return
`colored` as soon as any scanned value hits, else `monochrome`. -/
def detectColorMode (doc : SVGDoc) : CMode :=
  if (scannedColorValues doc).any scanHit then CMode.colored else CMode.monochrome

/-- Root `fill` default used for inheritance resolution: the root tag's own
(trimmed) `fill` value, defaulting to `"black"` when absent
(`parentFill` of the source). -/
def rootFill (doc : SVGDoc) : String :=
  ((lookupAttr doc.rootAttrs "fill").map strTrim).getD "black"

/-- Root `stroke` default, `"none"` when absent (`parentStroke`). -/
def rootStroke (doc : SVGDoc) : String :=
  ((lookupAttr doc.rootAttrs "stroke").map strTrim).getD "none"

/-- The per-shape rewrite of the current engine: read the element's own
(trimmed) `fill`/`stroke`, resolve effective values against the root
defaults, strip every `fill`/`stroke` attribute, then append the values
`computeNewColor` prescribes (fill first, then stroke). -/
def rewriteShapeAttrs (colorMode : CMode) (pf ps : String) (attrs : List Attr) : List Attr :=
  let fillValue := (lookupAttr attrs "fill").map strTrim
  let strokeValue := (lookupAttr attrs "stroke").map strTrim
  let effectiveFill := fillValue.getD pf
  let effectiveStroke := strokeValue.getD ps
  let stripped := attrs.filter (fun a => !(a.1 == "fill") && !(a.1 == "stroke"))
  let fillPart : List Attr :=
    match computeNewColor effectiveFill colorMode with
    | some v => [("fill", v)]
    | none => []
  let strokePart : List Attr :=
    match computeNewColor effectiveStroke colorMode with
    | some v => [("stroke", v)]
    | none => []
  stripped ++ fillPart ++ strokePart

/-- One item under the current engine's non-multicolor pass.  The element
regex is applied to the flat inner markup, so shapes inside `<defs>` are
rewritten exactly like top-level shapes; other markup is untouched. -/
def rewriteItem (colorMode : CMode) (pf ps : String) : Item → Item
  | Item.shape tag attrs => Item.shape tag (rewriteShapeAttrs colorMode pf ps attrs)
  | Item.defsB content =>
      Item.defsB (content.map (fun p => (p.1, rewriteShapeAttrs colorMode pf ps p.2)))
  | Item.otherEl attrs => Item.otherEl attrs

/-- Whether the multicolor branch's test `/\bstroke\s*=/.test(attrs)` holds:
the element carries a `stroke` attribute. -/
def hasStrokeAttr (attrs : List Attr) : Bool :=
  attrs.any (fun a => a.1 == "stroke")

/-- One shape under the multicolor branch: attributes untouched, with
`stroke="none"` appended when the element has no stroke attribute at all. -/
def multicolorShapeAttrs (attrs : List Attr) : List Attr :=
  if hasStrokeAttr attrs then attrs else attrs ++ [("stroke", "none")]

/-- One item under the multicolor branch (the flat regex also reaches shapes
inside `<defs>`). -/
def multicolorItem : Item → Item
  | Item.shape tag attrs => Item.shape tag (multicolorShapeAttrs attrs)
  | Item.defsB content => Item.defsB (content.map (fun p => (p.1, multicolorShapeAttrs p.2)))
  | Item.otherEl attrs => Item.otherEl attrs

/-- `extractInnerSVG` of the current engine over a structured document:
multicolor icons get the stroke-guard pass; all others are rewritten with
the mode computed by `detectColorMode` and the captured root defaults. -/
def extractInnerDoc (doc : SVGDoc) (isMulticolor : Bool) : List Item :=
  if isMulticolor then doc.items.map multicolorItem
  else doc.items.map (rewriteItem (detectColorMode doc) (rootFill doc) (rootStroke doc))

/-- The naming signal of the orchestrator:
`slug.startsWith("multicolor-")`. -/
def isMulticolorSlug (slug : String) : Bool :=
  strStartsWith slug "multicolor-"

/-- Per-icon processing as the orchestrator wires it: the naming signal
selects the multicolor branch, skipping content inspection. -/
def processIcon (slug : String) (doc : SVGDoc) : List Item :=
  extractInnerDoc doc (isMulticolorSlug slug)

/-! ## String level

Character-level implementations of the regex passes of the source, used for
the claims that are inherently about raw strings. -/

/-- First index at which `pat` occurs as a contiguous substring. -/
def findSubIdx (pat : List Char) : List Char → Option Nat
  | [] => if pat.isEmpty then some 0 else none
  | c :: t =>
      if pat.isPrefixOf (c :: t) then some 0 else (findSubIdx pat t).map (· + 1)

/-- Last index at which `pat` occurs as a contiguous substring. -/
def lastSubIdx (pat : List Char) : List Char → Option Nat
  | [] => if pat.isEmpty then some 0 else none
  | c :: t =>
      match lastSubIdx pat t with
      | some j => some (j + 1)
      | none => if pat.isPrefixOf (c :: t) then some 0 else none

/-- The envelope regex `<svg[^>]*>([\s\S]*)<\/svg>`: the leftmost `<svg`
start, its first following `>`, and the greedy content reaching to the last
`</svg>`.  Returns the open tag (quotes included) and the raw inner content;
`none` when the markup has no such envelope.  (When the first `<svg` start
admits no completed match, no later start does either, since a later start
only shrinks the regions in which `>` and `</svg>` are searched.) -/
def matchSvgEnvelope (s : List Char) : Option (List Char × List Char) :=
  match findSubIdx "<svg".data s with
  | none => none
  | some i =>
      let afterName := (s.drop i).drop 4
      match findSubIdx ['>'] afterName with
      | none => none
      | some j =>
          let openTag := (s.drop i).take (4 + j + 1)
          let content := afterName.drop (j + 1)
          match lastSubIdx "</svg>".data content with
          | none => none
          | some k => some (openTag, content.take k)

/-- Case-insensitive prefix test (the classifier regex carries the `i`
flag); `pat` is given in lowercase. -/
def ciPrefixOf : List Char → List Char → Bool
  | [], _ => true
  | _ :: _, [] => false
  | p :: pt, c :: ct => (p == c.toLower) && ciPrefixOf pt ct

/-- Match `\s*=\s*["'](value)["']` at the start of the input (the part of an
attribute pattern following the attribute name).  `allowEmpty` distinguishes
the `[^"']*` capture of the attribute-lookup regexes from the `[^"']+`
capture of the classifier scan.  Returns the captured value and the rest of
the input after the closing quote. -/
def matchQuotedValue (allowEmpty : Bool) (s : List Char) : Option (List Char × List Char) :=
  match s.dropWhile isWsChar with
  | c :: s2 =>
      if c == '=' then
        match s2.dropWhile isWsChar with
        | q :: s4 =>
            if q == quoteD || q == quoteS then
              let v := s4.takeWhile (fun ch => !(ch == quoteD) && !(ch == quoteS))
              if !allowEmpty && v.isEmpty then none
              else
                match s4.drop v.length with
                | q2 :: s5 =>
                    if q2 == quoteD || q2 == quoteS then some (v, s5) else none
                | [] => none
            else none
        | [] => none
      else none
  | [] => none

/-- The `exec` loop of `detectColorMode`'s regex
`\b(?:fill|stroke)\s*=\s*["']([^"']+)["']` with flags `gi`: collect the
captured values left to right, non-overlapping.  `fuel` bounds the number of
steps (each step consumes at least one character, so `length + 1` is always
enough). -/
def scanColorValuesAux : Nat → Bool → List Char → List String
  | 0, _, _ => []
  | _, _, [] => []
  | Nat.succ fuel, prevWord, c :: t =>
      let s := c :: t
      let attempt : Option (List Char × List Char) :=
        if prevWord then none
        else if ciPrefixOf "fill".data s then matchQuotedValue false (s.drop 4)
        else if ciPrefixOf "stroke".data s then matchQuotedValue false (s.drop 6)
        else none
      match attempt with
      | some (v, rest) => String.mk v :: scanColorValuesAux fuel false rest
      | none => scanColorValuesAux fuel (isWordChar c) t

/-- All values captured by the classifier regex over a raw string. -/
def scanColorValues (s : String) : List String :=
  scanColorValuesAux (s.data.length + 1) false s.data

/-- `detectColorMode` of the source over the raw markup string. -/
def detectColorModeStr (svgContent : String) : CMode :=
  if (scanColorValues svgContent).any scanHit then CMode.colored
  else CMode.monochrome

/-- First match of `\bNAME\s*=\s*["']([^"']*)["']` (case-sensitive, value
possibly empty): the attribute lookup used for the root tag and for shape
attributes. -/
def findAttrAux (name : List Char) : Bool → List Char → Option (List Char)
  | _, [] => none
  | prevWord, c :: t =>
      if !prevWord && name.isPrefixOf (c :: t) then
        match matchQuotedValue true ((c :: t).drop name.length) with
        | some (v, _) => some v
        | none => findAttrAux name (isWordChar c) t
      else findAttrAux name (isWordChar c) t

/-- The trimmed value of the first `NAME="…"` attribute in a raw string, as
`match(...)[1].trim()` produces it. -/
def findAttrValueStr (name : String) (s : List Char) : Option String :=
  (findAttrAux name.data false s).map (fun v => strTrim (String.mk v))

/-- Global removal of `\s*\bNAME\s*=\s*["'][^"']*["']`: the attribute strip
of the shape rewrite.  A match swallows the whitespace run preceding the
name; on failure the scan advances one character. -/
def stripAttrAux (name : List Char) : Nat → Bool → List Char → List Char
  | 0, _, s => s
  | _, _, [] => []
  | Nat.succ fuel, prevWord, c :: t =>
      let s := c :: t
      let wsRun := s.takeWhile isWsChar
      let afterWs := s.drop wsRun.length
      if (if wsRun.isEmpty then !prevWord else true) && name.isPrefixOf afterWs then
        match matchQuotedValue true (afterWs.drop name.length) with
        | some (_, rest) => stripAttrAux name fuel false rest
        | none => c :: stripAttrAux name fuel (isWordChar c) t
      else c :: stripAttrAux name fuel (isWordChar c) t

/-- Strip every `NAME` attribute from an attribute string. -/
def stripAttrStr (name : String) (attrs : List Char) : List Char :=
  stripAttrAux name.data (attrs.length + 1) false attrs

/-- The test `/\bstroke\s*=/` of the multicolor branch. -/
def hasStrokeEqAux : Bool → List Char → Bool
  | _, [] => false
  | prevWord, c :: t =>
      (!prevWord && "stroke".data.isPrefixOf (c :: t) &&
        (match ((c :: t).drop 6).dropWhile isWsChar with
         | e :: _ => e == '='
         | [] => false)) ||
      hasStrokeEqAux (isWordChar c) t

/-- The multicolor branch's callback: leave the attribute string untouched,
appending ` stroke="none"` when the element has no stroke attribute. -/
def multicolorCallbackStr (attrs : List Char) : List Char :=
  if hasStrokeEqAux false attrs then attrs
  else attrs ++ " stroke=\"none\"".data

/-- The non-multicolor shape callback of the current engine: read own
(trimmed) fill/stroke, resolve effective values against the captured root
defaults, strip both attributes, then append what `computeNewColor`
prescribes. -/
def shapeCallbackStr (colorMode : CMode) (pf ps : String) (attrs : List Char) : List Char :=
  let fillValue := findAttrValueStr "fill" attrs
  let strokeValue := findAttrValueStr "stroke" attrs
  let effectiveFill := fillValue.getD pf
  let effectiveStroke := strokeValue.getD ps
  let s1 := stripAttrStr "fill" attrs
  let s2 := stripAttrStr "stroke" s1
  let fillPart : List Char :=
    match computeNewColor effectiveFill colorMode with
    | some v => " fill=".data ++ [quoteD] ++ v.data ++ [quoteD]
    | none => []
  let strokePart : List Char :=
    match computeNewColor effectiveStroke colorMode with
    | some v => " stroke=".data ++ [quoteD] ++ v.data ++ [quoteD]
    | none => []
  s2 ++ fillPart ++ strokePart

/-- The tag alternation `path|circle|rect|ellipse|polygon|line|polyline`, in
the source's order. -/
def shapeTagStrs : List (List Char) :=
  ["path", "circle", "rect", "ellipse", "polygon", "line", "polyline"].map String.data

/-- Which shape tag the element regex matches right after a `<`. -/
def matchShapeTag (s : List Char) : Option (List Char) :=
  shapeTagStrs.find? (fun tg => tg.isPrefixOf s)

/-- The global replace over `<(tag)([^>]*?)(\/?)>`: walk the markup; at each
shape-element match, emit `<tag` + transformed attributes + the optional
self-closing slash + `>`; copy every other character verbatim. -/
def replaceShapesAux (f : List Char → List Char) : Nat → List Char → List Char
  | 0, s => s
  | _, [] => []
  | Nat.succ fuel, c :: t =>
      if c == '<' then
        match matchShapeTag t with
        | some tg =>
            let rest := t.drop tg.length
            let raw := rest.takeWhile (fun ch => !(ch == '>'))
            if raw.length < rest.length then
              let hasSlash := match raw.getLast? with
                | some ch => ch == '/'
                | none => false
              let attrs := if hasSlash then raw.dropLast else raw
              let slash : List Char := if hasSlash then ['/'] else []
              ('<' :: tg) ++ f attrs ++ slash ++ ['>'] ++
                replaceShapesAux f fuel (rest.drop (raw.length + 1))
            else c :: replaceShapesAux f fuel t
        | none => c :: replaceShapesAux f fuel t
      else c :: replaceShapesAux f fuel t

/-- Run the shape replace over a whole inner-markup string. -/
def replaceShapes (f : List Char → List Char) (s : List Char) : List Char :=
  replaceShapesAux f (s.length + 1) s

/-- `extractInnerSVG` of the current engine, at the string level: envelope
match (pass-through on failure), root fill/stroke capture from the open tag
(the separate `/<svg[^>]*>/` lookup of the source finds the same open tag),
trim of the inner content, then the multicolor or mode-based shape pass. -/
def extractInnerSVGStr (svg : String) (isMulticolor : Bool) : String :=
  match matchSvgEnvelope svg.data with
  | none => svg
  | some (openTag, inner) =>
      let parentFill := (findAttrValueStr "fill" openTag).getD "black"
      let parentStroke := (findAttrValueStr "stroke" openTag).getD "none"
      let innerT := trimChars inner
      if isMulticolor then
        String.mk (replaceShapes multicolorCallbackStr innerT)
      else
        let colorMode := detectColorModeStr svg
        String.mk (replaceShapes (shapeCallbackStr colorMode parentFill parentStroke) innerT)

/-! ## Theorems -/

/-- Pass-through behavior of the rewriter when the envelope regex does not
match: the input is returned unchanged. -/
theorem extractInner_passThrough (s : String) (b : Bool)
    (h : matchSvgEnvelope s.data = none) : extractInnerSVGStr s b = s := by
  unfold extractInnerSVGStr
  rw [h]

/-- C10: for every input string that does not match an `<svg>…</svg>`
envelope, the rewriter returns the input unchanged, in both the multicolor
and the non-multicolor branch (and, being a total function, never raises). -/
theorem c10_malformed_passthrough (s : String) (b : Bool)
    (h : matchSvgEnvelope s.data = none) : extractInnerSVGStr s b = s :=
  extractInner_passThrough s b h

/-- C10 witness: a bare path fragment has no envelope and passes through. -/
theorem c10_malformed_passthrough_witness :
    extractInnerSVGStr "<path d=\"M0 0\"/>" false = "<path d=\"M0 0\"/>" :=
  c10_malformed_passthrough "<path d=\"M0 0\"/>" false (by decide)

/-- A markup whose inner content itself contains a complete `<svg>…</svg>`
element: the first rewrite keeps that nested envelope in its output. -/
def nestedInput : String := "<svg><g></g><svg><path fill=\"red\" d=\"M0 0\"/></svg></svg>"

/-- C9 counterexample: rewriting is not idempotent on every markup.  On
`nestedInput` the first pass returns
`<g></g><svg><path d="M0 0" stroke="none"/></svg>`; the second pass matches
the surviving nested envelope and returns only
`<path d="M0 0" stroke="none"/>`, a different string. -/
theorem c9_counterexample :
    extractInnerSVGStr (extractInnerSVGStr nestedInput false) false ≠
      extractInnerSVGStr nestedInput false := by decide

/-- C9 amended: whenever the first rewrite's output no longer matches an
`<svg>…</svg>` envelope (no nested `<svg>` element survives), re-running the
rewrite with the mode flag held constant returns it unchanged. -/
theorem c9_idempotent_no_envelope (s : String) (b : Bool)
    (h : matchSvgEnvelope (extractInnerSVGStr s b).data = none) :
    extractInnerSVGStr (extractInnerSVGStr s b) b = extractInnerSVGStr s b :=
  extractInner_passThrough (extractInnerSVGStr s b) b h

/-- C9 witness: a plain monochrome icon's output has no envelope, so the
second pass is the identity on it. -/
theorem c9_idempotent_no_envelope_witness :
    extractInnerSVGStr (extractInnerSVGStr "<svg><path fill=\"#000\"/></svg>" false) false =
      extractInnerSVGStr "<svg><path fill=\"#000\"/></svg>" false :=
  c9_idempotent_no_envelope "<svg><path fill=\"#000\"/></svg>" false (by decide)

/-- The literal input of the spec's monochrome scenario. -/
def scenarioInput : String :=
  "<svg viewBox=\"0 0 24 24\"><path fill=\"#000\" d=\"M0 0\"/><path stroke=\"#fff\" d=\"M1 1\"/></svg>"

/-- C5 counterexample: the mode is `Monochrome` as claimed, but the output
is not `<path d="M0 0"/><path stroke="white" d="M1 1"/>`: the rewriter also
appends `stroke="none"` to the first path (its absent stroke resolves to the
root default `none`, which `computeNewColor` keeps as a literal), and the
rewritten `stroke="white"` is re-appended after the other attributes. -/
theorem c5_counterexample :
    detectColorModeStr scenarioInput = CMode.monochrome ∧
      extractInnerSVGStr scenarioInput false ≠
        "<path d=\"M0 0\"/><path stroke=\"white\" d=\"M1 1\"/>" :=
  ⟨by decide, by decide⟩

/-- C5 amended: the mode is `Monochrome` and the output consists of
`<path d="M0 0" stroke="none"/>` (fill dropped, explicit `stroke="none"`
from the root default) and `<path d="M1 1" stroke="white"/>` (white
preserved literally, appended after the remaining attributes). -/
theorem c5_amended_scenario :
    detectColorModeStr scenarioInput = CMode.monochrome ∧
      extractInnerSVGStr scenarioInput false =
        "<path d=\"M0 0\" stroke=\"none\"/><path d=\"M1 1\" stroke=\"white\"/>" :=
  ⟨by decide, by decide⟩

/-! ### Normalization support

The source normalizes color values twice (`trim().toLowerCase()` in the scan
loop, then `toLowerCase().trim()` again inside the class tests), so relating
the classifier to the claim's single normalization needs idempotence and
commutation facts about lowercasing and trimming. -/

/-- Value of `Char.ofNat` on a valid code point. -/
theorem char_toNat_ofNat_valid {n : Nat} (h : n.isValidChar) : (Char.ofNat n).toNat = n := by
  rw [Char.ofNat, dif_pos h]
  rfl

/-- Characters at code point 33 or above are not whitespace. -/
theorem ws_false_of_33_le {c : Char} (h : 33 ≤ c.toNat) : isWsChar c = false := by
  simp only [isWsChar, Char.isWhitespace, Bool.or_eq_false_iff, decide_eq_false_iff_not]
  refine ⟨⟨⟨?_, ?_⟩, ?_⟩, ?_⟩ <;> rintro rfl <;> exact absurd h (by decide)

/-- `Char.toLower` on an upper-case basic latin letter. -/
theorem toLower_eq_of_upper {c : Char} (h : 65 ≤ c.toNat ∧ c.toNat ≤ 90) :
    c.toLower = Char.ofNat (c.toNat + 32) := by
  unfold Char.toLower
  exact if_pos h

/-- `Char.toLower` fixes everything that is not an upper-case letter. -/
theorem toLower_eq_self {c : Char} (h : ¬(65 ≤ c.toNat ∧ c.toNat ≤ 90)) :
    c.toLower = c := by
  unfold Char.toLower
  exact if_neg h

/-- Lowercasing preserves whitespace-ness. -/
theorem isWs_toLower (c : Char) : isWsChar c.toLower = isWsChar c := by
  by_cases h : 65 ≤ c.toNat ∧ c.toNat ≤ 90
  · rw [toLower_eq_of_upper h]
    have hv : (c.toNat + 32).isValidChar := Or.inl (by omega)
    rw [ws_false_of_33_le (by rw [char_toNat_ofNat_valid hv]; omega),
      ws_false_of_33_le (by omega)]
  · rw [toLower_eq_self h]

/-- `Char.toLower` is idempotent. -/
theorem toLower_toLower (c : Char) : c.toLower.toLower = c.toLower := by
  by_cases h : 65 ≤ c.toNat ∧ c.toNat ≤ 90
  · rw [toLower_eq_of_upper h]
    have hv : (c.toNat + 32).isValidChar := Or.inl (by omega)
    exact toLower_eq_self (by rw [char_toNat_ofNat_valid hv]; omega)
  · rw [toLower_eq_self h, toLower_eq_self h]

/-- Whitespace-ness composed with lowercasing. -/
theorem isWs_comp_toLower : isWsChar ∘ Char.toLower = isWsChar :=
  funext isWs_toLower

/-- Trimming commutes with lowercasing. -/
theorem trimChars_map_toLower (l : List Char) :
    trimChars (l.map Char.toLower) = (trimChars l).map Char.toLower := by
  unfold trimChars
  rw [List.dropWhile_map, isWs_comp_toLower, ← List.map_reverse, List.dropWhile_map,
    isWs_comp_toLower, ← List.map_reverse]

/-- Lowercasing a character list is idempotent. -/
theorem map_toLower_idem (l : List Char) :
    (l.map Char.toLower).map Char.toLower = l.map Char.toLower := by
  rw [List.map_map]
  congr 1
  funext c
  exact toLower_toLower c

/-- `trimChars` as a right-drop after a left-drop. -/
theorem trimChars_eq_rdrop (l : List Char) :
    trimChars l = List.rdropWhile isWsChar (l.dropWhile isWsChar) := rfl

/-- Trimming is idempotent. -/
theorem trimChars_idem (l : List Char) : trimChars (trimChars l) = trimChars l := by
  rw [trimChars_eq_rdrop, trimChars_eq_rdrop]
  have hd : (List.rdropWhile isWsChar (l.dropWhile isWsChar)).dropWhile isWsChar
      = List.rdropWhile isWsChar (l.dropWhile isWsChar) := by
    apply List.dropWhile_eq_self_iff.mpr
    intro hl
    have hpre : List.rdropWhile isWsChar (l.dropWhile isWsChar) <+: l.dropWhile isWsChar :=
      List.rdropWhile_prefix _ _
    have h0 := hpre.getElem (n := 0) hl
    simp only [List.get_eq_getElem, h0]
    exact List.dropWhile_get_zero_not isWsChar l _
  rw [hd, List.rdropWhile_idempotent]

/-- Re-normalizing an already trimmed-and-lowercased value is the identity:
the equation that reconciles the scan loop's `trim().toLowerCase()` with the
class tests' `toLowerCase().trim()`. -/
theorem strNorm_idem (v : String) :
    strTrim (strLower (strLower (strTrim v))) = strLower (strTrim v) := by
  unfold strTrim strLower
  simp only [map_toLower_idem, trimChars_map_toLower, trimChars_idem]

/-- What `scanHit` means in the claim's terms: the value, trimmed and
lowercased, is neither `none` nor `currentColor` and lies outside the
black/white classes. -/
theorem scanHit_spec (v : String) :
    scanHit v = true ↔
      (strLower (strTrim v) ≠ "none" ∧ strLower (strTrim v) ≠ "currentcolor" ∧
        strLower (strTrim v) ∉
          (["black", "#000", "#000000", "white", "#fff", "#ffffff"] : List String)) := by
  unfold scanHit isBlackColor isWhiteColor
  rw [strNorm_idem]
  simp only [BLACK_COLORS, WHITE_COLORS, Bool.and_eq_true, Bool.not_eq_true',
    beq_eq_false_iff_ne, beq_iff_eq, ne_eq, List.contains_eq_any_beq, List.any_eq_false,
    List.mem_cons, List.not_mem_nil, List.mem_singleton, not_or, or_false,
    forall_eq_or_imp, forall_eq]
  tauto

/-- The classifier answers `colored` exactly when some scanned value hits. -/
theorem detectColorMode_eq_colored_iff (doc : SVGDoc) :
    detectColorMode doc = CMode.colored ↔ (scannedColorValues doc).any scanHit = true := by
  unfold detectColorMode
  split <;> simp_all

/-- C2 amended: the classifier returns `Colored` exactly when the markup has
a fill/stroke attribute whose value is nonempty and, trimmed and lowercased,
is neither `none` nor `currentcolor` and lies outside the black/white
classes.  (Nonemptiness is the amendment: the scan regex captures `[^"']+`,
so an empty-valued attribute is invisible to the classifier.) -/
theorem c2_colored_iff_scannable_outside (doc : SVGDoc) :
    detectColorMode doc = CMode.colored ↔
      ∃ v ∈ colorValuesAll doc, v ≠ "" ∧ strLower (strTrim v) ≠ "none" ∧
        strLower (strTrim v) ≠ "currentcolor" ∧
        strLower (strTrim v) ∉
          (["black", "#000", "#000000", "white", "#fff", "#ffffff"] : List String) := by
  rw [detectColorMode_eq_colored_iff, List.any_eq_true]
  constructor
  · rintro ⟨v, hv, hhit⟩
    rw [scannedColorValues, List.mem_filter] at hv
    refine ⟨v, hv.1, ?_, (scanHit_spec v).mp hhit⟩
    simpa [bne_iff_ne] using hv.2
  · rintro ⟨v, hv, hne, h1, h2, h3⟩
    refine ⟨v, ?_, (scanHit_spec v).mpr ⟨h1, h2, h3⟩⟩
    rw [scannedColorValues, List.mem_filter]
    exact ⟨hv, by simpa [bne_iff_ne] using hne⟩

/-- A document whose only fill attribute has the empty value. -/
def emptyFillDoc : SVGDoc := ⟨[], [Item.shape ShapeTag.path [("fill", "")]]⟩

/-- C2 counterexample: the claim's equivalence (without the nonemptiness
condition) fails.  `emptyFillDoc` has a fill attribute whose value, trimmed
and lowercased, is neither `none` nor `currentcolor` and lies outside the
black/white classes (it is empty), so the claim demands `Colored`; but the
scan regex requires a nonempty quoted value, and the classifier returns
`Monochrome`. -/
theorem c2_counterexample :
    ¬(detectColorMode emptyFillDoc = CMode.colored ↔
      ∃ v ∈ colorValuesAll emptyFillDoc, strLower (strTrim v) ≠ "none" ∧
        strLower (strTrim v) ≠ "currentcolor" ∧
        strLower (strTrim v) ∉
          (["black", "#000", "#000000", "white", "#fff", "#ffffff"] : List String)) := by
  intro h
  have hc : detectColorMode emptyFillDoc = CMode.colored :=
    h.mpr ⟨"", by decide, by decide, by decide, by decide⟩
  exact absurd hc (by decide)

/-- The fill/stroke values of one item that lie outside every `<defs>`
block. -/
def itemNonDefsColorValues : Item → List String
  | Item.shape _ attrs => attrColorValues attrs
  | Item.defsB _ => []
  | Item.otherEl attrs => attrColorValues attrs

/-- All fill/stroke values of the document outside `<defs>` blocks. -/
def nonDefsColorValues (doc : SVGDoc) : List String :=
  attrColorValues doc.rootAttrs ++ doc.items.flatMap itemNonDefsColorValues

/-- The fill/stroke values of one item that lie inside a `<defs>` block. -/
def itemDefsColorValues : Item → List String
  | Item.defsB content => content.flatMap (fun p => attrColorValues p.2)
  | _ => []

/-- All fill/stroke values inside `<defs>` blocks. -/
def defsColorValues (doc : SVGDoc) : List String :=
  doc.items.flatMap itemDefsColorValues

/-- Values inside `<defs>` are among the values the classifier scans. -/
theorem defs_subset_all {doc : SVGDoc} {v : String} (h : v ∈ defsColorValues doc) :
    v ∈ colorValuesAll doc := by
  unfold defsColorValues at h
  unfold colorValuesAll
  rw [List.mem_flatMap] at h
  obtain ⟨item, hitem, hv⟩ := h
  apply List.mem_append_right
  rw [List.mem_flatMap]
  refine ⟨item, hitem, ?_⟩
  cases item with
  | shape tag attrs => simp [itemDefsColorValues] at hv
  | defsB content => simpa [itemDefsColorValues, itemColorValues] using hv
  | otherEl attrs => simp [itemDefsColorValues] at hv

/-- C3 amended: values inside `<defs>` are not excluded from the
classifier's scan — a nonempty fill/stroke value occurring inside a `<defs>`
block which, trimmed and lowercased, is neither `none` nor `currentcolor`
and lies outside the black/white classes forces the classifier to return
`Colored`. -/
theorem c3_defs_value_causes_colored (doc : SVGDoc) (v : String)
    (hv : v ∈ defsColorValues doc) (hne : v ≠ "")
    (h1 : strLower (strTrim v) ≠ "none") (h2 : strLower (strTrim v) ≠ "currentcolor")
    (h3 : strLower (strTrim v) ∉
      (["black", "#000", "#000000", "white", "#fff", "#ffffff"] : List String)) :
    detectColorMode doc = CMode.colored := by
  rw [detectColorMode_eq_colored_iff, List.any_eq_true]
  refine ⟨v, ?_, (scanHit_spec v).mpr ⟨h1, h2, h3⟩⟩
  rw [scannedColorValues, List.mem_filter]
  exact ⟨defs_subset_all hv, by simpa [bne_iff_ne] using hne⟩

/-- A document whose only non-black/white color sits inside `<defs>`. -/
def defsColoredDoc : SVGDoc :=
  ⟨[], [Item.defsB [(ShapeTag.path, [("fill", "#3366ff")])],
    Item.shape ShapeTag.path [("fill", "#000")]]⟩

/-- C3 counterexample: in `defsColoredDoc` every fill/stroke value outside
`<defs>` belongs to the black/white classes, so under the claim (defs values
excluded from the scan) the classifier would have to return `Monochrome`;
it returns `Colored`, because the `#3366ff` inside `<defs>` is scanned. -/
theorem c3_counterexample :
    (∀ v ∈ nonDefsColorValues defsColoredDoc,
        strLower (strTrim v) ∈
          (["black", "#000", "#000000", "white", "#fff", "#ffffff"] : List String)) ∧
      detectColorMode defsColoredDoc = CMode.colored :=
  ⟨by decide, by decide⟩

/-- C3 witness: applying the amended theorem to `defsColoredDoc` and its
defs-contained value `#3366ff`. -/
theorem c3_defs_value_causes_colored_witness :
    detectColorMode defsColoredDoc = CMode.colored :=
  c3_defs_value_causes_colored defsColoredDoc "#3366ff" (by decide) (by decide)
    (by decide) (by decide) (by decide)

/-- Following the claim's mapping table for Monochrome/Colored rewriting:
`none` stays literal `none`; `currentColor` drops the attribute; a
white-class value becomes literal `white`; a black-class value becomes
literal `black` in Colored mode and a dropped attribute in Monochrome mode;
any other value drops the attribute. -/
def specColorMap (c : String) (mode : CMode) : Option String :=
  if strTrim (strLower c) = "none" then some "none"
  else if strTrim (strLower c) = "currentcolor" then none
  else if strTrim (strLower c) ∈ (["white", "#fff", "#ffffff"] : List String) then some "white"
  else if strTrim (strLower c) ∈ (["black", "#000", "#000000"] : List String) then
    (if mode = CMode.colored then some "black" else none)
  else none

/-- The source's `computeNewColor` coincides with the claim's mapping
table. -/
theorem computeNewColor_eq_spec (c : String) (m : CMode) :
    computeNewColor c m = specColorMap c m := by
  by_cases h1 : strTrim (strLower c) = "none" <;>
    by_cases h2 : strTrim (strLower c) = "currentcolor" <;>
      by_cases h3 : strTrim (strLower c) ∈ (["white", "#fff", "#ffffff"] : List String) <;>
        by_cases h4 : strTrim (strLower c) ∈ (["black", "#000", "#000000"] : List String) <;>
          simp [computeNewColor, specColorMap, isWhiteColor, isBlackColor, WHITE_COLORS,
            BLACK_COLORS, h1, h2, h3, h4, List.contains_eq_any_beq, List.any_eq_true,
            beq_iff_eq]

/-- The strip pass leaves no fill or stroke attribute behind. -/
theorem find?_strip_none (attrs : List Attr) (n : String) (h : n = "fill" ∨ n = "stroke") :
    (attrs.filter (fun a => !(a.1 == "fill") && !(a.1 == "stroke"))).find?
      (fun a => a.1 == n) = none := by
  rw [List.find?_eq_none]
  intro x hx
  rw [List.mem_filter] at hx
  have hk := hx.2
  simp only [Bool.and_eq_true, Bool.not_eq_true', beq_eq_false_iff_ne] at hk
  rcases h with rfl | rfl <;> simp [hk.1, hk.2]

/-- The rewritten fill of a shape is exactly `computeNewColor` of the
effective fill. -/
theorem lookupAttr_rewriteShape_fill (mode : CMode) (pf ps : String) (attrs : List Attr) :
    lookupAttr (rewriteShapeAttrs mode pf ps attrs) "fill" =
      computeNewColor (((lookupAttr attrs "fill").map strTrim).getD pf) mode := by
  unfold rewriteShapeAttrs lookupAttr
  rw [List.append_assoc, List.find?_append, find?_strip_none _ _ (Or.inl rfl)]
  cases hf : computeNewColor (((List.find? (fun a => a.1 == "fill") attrs).map
      (fun a => a.2)).map strTrim |>.getD pf) mode with
  | none =>
      cases hs : computeNewColor (((List.find? (fun a => a.1 == "stroke") attrs).map
          (fun a => a.2)).map strTrim |>.getD ps) mode with
      | none => simp [hf, hs]
      | some w => simp [hf, hs]
  | some v => simp [hf]

/-- The rewritten stroke of a shape is exactly `computeNewColor` of the
effective stroke. -/
theorem lookupAttr_rewriteShape_stroke (mode : CMode) (pf ps : String) (attrs : List Attr) :
    lookupAttr (rewriteShapeAttrs mode pf ps attrs) "stroke" =
      computeNewColor (((lookupAttr attrs "stroke").map strTrim).getD ps) mode := by
  unfold rewriteShapeAttrs lookupAttr
  rw [List.append_assoc, List.find?_append, find?_strip_none _ _ (Or.inr rfl)]
  cases hf : computeNewColor (((List.find? (fun a => a.1 == "fill") attrs).map
      (fun a => a.2)).map strTrim |>.getD pf) mode with
  | none =>
      cases hs : computeNewColor (((List.find? (fun a => a.1 == "stroke") attrs).map
          (fun a => a.2)).map strTrim |>.getD ps) mode with
      | none => simp [hf, hs]
      | some w => simp [hf, hs]
  | some v =>
      cases hs : computeNewColor (((List.find? (fun a => a.1 == "stroke") attrs).map
          (fun a => a.2)).map strTrim |>.getD ps) mode with
      | none => simp [hf, hs]
      | some w => simp [hf, hs]

/-- C1: under the non-multicolor rewrite, each shape element's effective
fill and stroke are resolved as the element's own (trimmed) attribute value
when present, otherwise the root tag's value (defaulting to `black` for fill
and `none` for stroke), and the rewritten attributes carry exactly the
claim's mapping of those effective values, in the mode the classifier
chose. -/
theorem c1_effective_resolution_mapping (doc : SVGDoc) (i : Nat) (tag : ShapeTag)
    (attrs : List Attr) (h : doc.items[i]? = some (Item.shape tag attrs)) :
    ∃ attrs2, (extractInnerDoc doc false)[i]? = some (Item.shape tag attrs2) ∧
      lookupAttr attrs2 "fill" =
        specColorMap (((lookupAttr attrs "fill").map strTrim).getD (rootFill doc))
          (detectColorMode doc) ∧
      lookupAttr attrs2 "stroke" =
        specColorMap (((lookupAttr attrs "stroke").map strTrim).getD (rootStroke doc))
          (detectColorMode doc) := by
  refine ⟨rewriteShapeAttrs (detectColorMode doc) (rootFill doc) (rootStroke doc) attrs,
    ?_, ?_, ?_⟩
  · unfold extractInnerDoc
    rw [if_neg (by simp), List.getElem?_map, h]
    rfl
  · rw [lookupAttr_rewriteShape_fill, computeNewColor_eq_spec]
  · rw [lookupAttr_rewriteShape_stroke, computeNewColor_eq_spec]

/-- The document-level rendering of the spec's monochrome scenario input. -/
def scenarioDoc : SVGDoc :=
  ⟨[("viewBox", "0 0 24 24")],
    [Item.shape ShapeTag.path [("fill", "#000"), ("d", "M0 0")],
      Item.shape ShapeTag.path [("stroke", "#fff"), ("d", "M1 1")]]⟩

/-- C1 witness: the first path of the scenario document, with its effective
values `#000` (own fill) and `none` (root default stroke). -/
theorem c1_effective_resolution_mapping_witness :
    ∃ attrs2, (extractInnerDoc scenarioDoc false)[0]? =
        some (Item.shape ShapeTag.path attrs2) ∧
      lookupAttr attrs2 "fill" =
        specColorMap (((lookupAttr [("fill", "#000"), ("d", "M0 0")] "fill").map
          strTrim).getD (rootFill scenarioDoc)) (detectColorMode scenarioDoc) ∧
      lookupAttr attrs2 "stroke" =
        specColorMap (((lookupAttr [("fill", "#000"), ("d", "M0 0")] "stroke").map
          strTrim).getD (rootStroke scenarioDoc)) (detectColorMode scenarioDoc) :=
  c1_effective_resolution_mapping scenarioDoc 0 ShapeTag.path
    [("fill", "#000"), ("d", "M0 0")] (by decide)

/-- A fill/stroke disposition the invariant allows: absent (inherit),
literal `none`, literal `white`, or literal `black` in Colored mode. -/
def okDisposition (mode : CMode) (v : Option String) : Prop :=
  v = none ∨ v = some "none" ∨ v = some "white" ∨
    (mode = CMode.colored ∧ v = some "black")

/-- `computeNewColor` only ever produces allowed dispositions. -/
theorem computeNewColor_disposition (c : String) (m : CMode) :
    okDisposition m (computeNewColor c m) := by
  unfold computeNewColor okDisposition
  split_ifs <;> tauto

/-- Both dispositions of a rewritten shape's attribute list are allowed. -/
def shapeDispositionOk (mode : CMode) (attrs2 : List Attr) : Prop :=
  okDisposition mode (lookupAttr attrs2 "fill") ∧
    okDisposition mode (lookupAttr attrs2 "stroke")

/-- C6: every shape element in the output of the non-multicolor rewrite
(`<defs>` content included) has each of fill and stroke in exactly one of
the allowed states — absent, literal `none`, literal `white`, or literal
`black` in Colored mode; no raw hex or other named color survives. -/
theorem c6_output_dispositions (doc : SVGDoc) (item : Item)
    (h : item ∈ extractInnerDoc doc false) :
    (∀ tag attrs2, item = Item.shape tag attrs2 →
      shapeDispositionOk (detectColorMode doc) attrs2) ∧
    (∀ content tag attrs2, item = Item.defsB content → (tag, attrs2) ∈ content →
      shapeDispositionOk (detectColorMode doc) attrs2) := by
  unfold extractInnerDoc at h
  rw [if_neg (by simp)] at h
  rw [List.mem_map] at h
  obtain ⟨pre, hpre, rfl⟩ := h
  constructor
  · intro tag attrs2 heq
    cases pre with
    | shape t a =>
        simp only [rewriteItem] at heq
        injection heq with h1 h2
        subst h2
        exact ⟨by rw [lookupAttr_rewriteShape_fill]; exact computeNewColor_disposition _ _,
          by rw [lookupAttr_rewriteShape_stroke]; exact computeNewColor_disposition _ _⟩
    | defsB c => simp [rewriteItem] at heq
    | otherEl a => simp [rewriteItem] at heq
  · intro content tag attrs2 heq hmem
    cases pre with
    | shape t a => simp [rewriteItem] at heq
    | defsB c =>
        simp only [rewriteItem] at heq
        injection heq with h1
        subst h1
        rw [List.mem_map] at hmem
        obtain ⟨q, hq, hq2⟩ := hmem
        have : attrs2 = rewriteShapeAttrs (detectColorMode doc) (rootFill doc)
            (rootStroke doc) q.2 := congrArg Prod.snd hq2.symm
        subst this
        exact ⟨by rw [lookupAttr_rewriteShape_fill]; exact computeNewColor_disposition _ _,
          by rw [lookupAttr_rewriteShape_stroke]; exact computeNewColor_disposition _ _⟩
    | otherEl a => simp [rewriteItem] at heq

/-- C6 witness: the first output item of the scenario document. -/
theorem c6_output_dispositions_witness :
    (∀ tag attrs2,
        Item.shape ShapeTag.path [("d", "M0 0"), ("stroke", "none")] = Item.shape tag attrs2 →
        shapeDispositionOk (detectColorMode scenarioDoc) attrs2) ∧
    (∀ content tag attrs2,
        Item.shape ShapeTag.path [("d", "M0 0"), ("stroke", "none")] = Item.defsB content →
        (tag, attrs2) ∈ content → shapeDispositionOk (detectColorMode scenarioDoc) attrs2) :=
  c6_output_dispositions scenarioDoc
    (Item.shape ShapeTag.path [("d", "M0 0"), ("stroke", "none")]) (by decide)

/-- C4: when the slug carries the reserved `multicolor-` naming signal, the
pipeline takes the multicolor branch regardless of the markup's content —
every existing attribute of every shape is kept untouched, and
`stroke="none"` is appended to exactly those shapes that have no stroke
attribute at all. -/
theorem c4_multicolor_naming_signal (slug : String) (doc : SVGDoc) (i : Nat)
    (tag : ShapeTag) (attrs : List Attr) (hs : isMulticolorSlug slug = true)
    (h : doc.items[i]? = some (Item.shape tag attrs)) :
    ∃ attrs2, (processIcon slug doc)[i]? = some (Item.shape tag attrs2) ∧
      (∀ a ∈ attrs, a ∈ attrs2) ∧
      (hasStrokeAttr attrs = true → attrs2 = attrs) ∧
      (hasStrokeAttr attrs = false → attrs2 = attrs ++ [("stroke", "none")]) := by
  refine ⟨multicolorShapeAttrs attrs, ?_, ?_, ?_, ?_⟩
  · unfold processIcon extractInnerDoc
    rw [hs, if_pos rfl, List.getElem?_map, h]
    rfl
  · intro a ha
    unfold multicolorShapeAttrs
    split
    · exact ha
    · exact List.mem_append_left _ ha
  · intro hst
    unfold multicolorShapeAttrs
    rw [if_pos hst]
  · intro hst
    unfold multicolorShapeAttrs
    rw [if_neg (by simp [hst])]

/-- C4 witness: a multicolor-named icon with one strokeless red path keeps
its fill and gains `stroke="none"`. -/
theorem c4_multicolor_naming_signal_witness :
    ∃ attrs2,
      (processIcon "multicolor-brazil"
          ⟨[], [Item.shape ShapeTag.path [("fill", "#ff0000")]]⟩)[0]? =
        some (Item.shape ShapeTag.path attrs2) ∧
      (∀ a ∈ [(("fill" : String), ("#ff0000" : String))], a ∈ attrs2) ∧
      (hasStrokeAttr [("fill", "#ff0000")] = true → attrs2 = [("fill", "#ff0000")]) ∧
      (hasStrokeAttr [("fill", "#ff0000")] = false →
        attrs2 = [("fill", "#ff0000")] ++ [("stroke", "none")]) :=
  c4_multicolor_naming_signal "multicolor-brazil"
    ⟨[], [Item.shape ShapeTag.path [("fill", "#ff0000")]]⟩ 0 ShapeTag.path
    [("fill", "#ff0000")] (by decide) (by decide)

/-- Filtering with a predicate implied by the search predicate does not
change the result of `find?`. -/
theorem find?_filter_of_imp (l : List Attr) (p q : Attr → Bool)
    (h : ∀ a, p a = true → q a = true) : (l.filter q).find? p = l.find? p := by
  induction l with
  | nil => rfl
  | cons a t ih =>
      by_cases hq : q a = true
      · by_cases hp : p a = true <;> simp [List.filter_cons, List.find?_cons, hq, hp, ih]
      · have hp : p a = false := by
          cases hpa : p a
          · rfl
          · exact absurd (h a hpa) hq
        simp [List.filter_cons, List.find?_cons, hq, hp, ih]

/-- A document with a literal stroke-width on its only path. -/
def strokeWidthDoc : SVGDoc :=
  ⟨[], [Item.shape ShapeTag.path [("stroke-width", "2"), ("d", "M0 0")]]⟩

/-- C7 counterexample: the current rewriter does not remove `stroke-width`
in its non-multicolor pass — on `strokeWidthDoc` (classified `Monochrome`)
the output path still carries `stroke-width="2"`, where the claim demands
the attribute's removal. -/
theorem c7_counterexample :
    (extractInnerDoc strokeWidthDoc false)[0]? =
      some (Item.shape ShapeTag.path
        [("stroke-width", "2"), ("d", "M0 0"), ("stroke", "none")]) ∧
    lookupAttr [("stroke-width", "2"), ("d", "M0 0"), ("stroke", "none")] "stroke-width" =
      some "2" :=
  ⟨by decide, by decide⟩

/-- C7 amended: the current engine never strips `stroke-width` — both the
non-multicolor rewrite and the multicolor pass leave every attribute other
than `fill` and `stroke` (in particular `stroke-width`) unchanged. -/
theorem c7_nonColor_attrs_preserved (mode : CMode) (pf ps : String) (attrs : List Attr)
    (n : String) (hf : n ≠ "fill") (hs : n ≠ "stroke") :
    lookupAttr (rewriteShapeAttrs mode pf ps attrs) n = lookupAttr attrs n ∧
      lookupAttr (multicolorShapeAttrs attrs) n = lookupAttr attrs n := by
  constructor
  · unfold rewriteShapeAttrs lookupAttr
    rw [List.append_assoc, List.find?_append]
    rw [find?_filter_of_imp _ _ _ (fun a ha => by
      have : a.1 = n := by simpa using ha
      simp [this, hf, hs])]
    have h2 : (List.find? (fun a => a.1 == n)
        ((match computeNewColor (((List.find? (fun a => a.1 == "fill") attrs).map
            (fun a => a.2)).map strTrim |>.getD pf) mode with
          | some v => [(("fill" : String), v)]
          | none => []) ++
         (match computeNewColor (((List.find? (fun a => a.1 == "stroke") attrs).map
            (fun a => a.2)).map strTrim |>.getD ps) mode with
          | some v => [(("stroke" : String), v)]
          | none => []))) = none := by
      rw [List.find?_eq_none]
      intro x hx
      rw [List.mem_append] at hx
      rcases hx with hx | hx <;> revert hx <;> split <;>
        simp_all [Ne.symm hf, Ne.symm hs]
    rw [h2, Option.or_none]
  · unfold multicolorShapeAttrs lookupAttr
    split
    · rfl
    · rw [List.find?_append]
      have h2 : List.find? (fun a => a.1 == n) [(("stroke" : String), ("none" : String))]
          = none := by
        simp [Ne.symm hs]
      rw [h2, Option.or_none]

/-- C7 witness: `stroke-width="2"` survives both passes on a concrete
attribute list. -/
theorem c7_nonColor_attrs_preserved_witness :
    lookupAttr (rewriteShapeAttrs CMode.monochrome "black" "none"
        [("stroke-width", "2"), ("d", "M0 0")]) "stroke-width" =
      lookupAttr [("stroke-width", "2"), ("d", "M0 0")] "stroke-width" ∧
    lookupAttr (multicolorShapeAttrs [("stroke-width", "2"), ("d", "M0 0")]) "stroke-width" =
      lookupAttr [("stroke-width", "2"), ("d", "M0 0")] "stroke-width" :=
  c7_nonColor_attrs_preserved CMode.monochrome "black" "none"
    [("stroke-width", "2"), ("d", "M0 0")] "stroke-width" (by decide) (by decide)

/-! ## The earlier variant's "filled" (hybrid) branch -/

/-- The negative lookahead `(?!none)` of the filled branch's regexes: a
value is a "real" color there exactly when it does not start with the
literal `none`. -/
def startsWithNone (v : String) : Bool := "none".data.isPrefixOf v.data

/-- The test `/NAME="(?!none)[^"]*"/.test(attrs)`: some `NAME` attribute
has a value not starting with `none`. -/
def hasRealAttr (n : String) (attrs : List Attr) : Bool :=
  attrs.any (fun a => a.1 == n && !(startsWithNone a.2))

/-- The test `/NAME="none"/.test(attrs)`: some `NAME` attribute has the
literal value `none`. -/
def hasNoneLiteral (n : String) (attrs : List Attr) : Bool :=
  attrs.any (fun a => a.1 == n && a.2 == "none")

/-- The append pass of the filled branch.  Its element regex is
`<(path|circle)([^>]*?)(\/?)>`, so only `path` and `circle` elements are
considered; the tests read only the element's own attributes. -/
def filledAppendAttrs (tag : ShapeTag) (attrs : List Attr) : List Attr :=
  if tag = ShapeTag.path ∨ tag = ShapeTag.circle then
    if hasRealAttr "stroke" attrs && !(hasRealAttr "fill" attrs)
        && !(hasNoneLiteral "fill" attrs) then attrs ++ [("fill", "none")]
    else if hasRealAttr "fill" attrs && !(hasRealAttr "stroke" attrs)
        && !(hasNoneLiteral "stroke" attrs) then attrs ++ [("stroke", "none")]
    else attrs
  else attrs

/-- The global strip pass of the filled branch
(`replace(/\s*fill="(?!none)[^"]*"/g, '')` and its stroke twin): every
fill/stroke attribute whose value does not start with `none` is removed,
on every element of the markup. -/
def filledStripAttrs (attrs : List Attr) : List Attr :=
  attrs.filter (fun a => !((a.1 == "fill" || a.1 == "stroke") && !(startsWithNone a.2)))

/-- One item under the filled branch: append pass on path/circle elements
(the flat regex also reaches them inside `<defs>`), then the global strip
on every element. -/
def filledItem : Item → Item
  | Item.shape tag attrs => Item.shape tag (filledStripAttrs (filledAppendAttrs tag attrs))
  | Item.defsB content =>
      Item.defsB (content.map (fun p => (p.1, filledStripAttrs (filledAppendAttrs p.1 p.2))))
  | Item.otherEl attrs => Item.otherEl (filledStripAttrs attrs)

/-- The filled (`isFilled`) branch of the earlier variant's
`extractInnerSVG`, over the structured inner markup. -/
def extractInnerFilled (items : List Item) : List Item := items.map filledItem

/-- Following the claim's wording for the Hybrid rule on one shape element:
resolve absent fill/stroke against the captured root defaults, call the
result real when it differs from `none`, add `fill="none"` to stroke-only
elements and `stroke="none"` to fill-only elements, then strip every real
fill/stroke value while keeping literal `none` attributes. -/
def specHybridShape (rootF rootS : String) (attrs : List Attr) : List Attr :=
  let attrs1 :=
    if ((lookupAttr attrs "stroke").getD rootS) ≠ "none" ∧
        ¬(((lookupAttr attrs "fill").getD rootF) ≠ "none") then attrs ++ [("fill", "none")]
    else if ((lookupAttr attrs "fill").getD rootF) ≠ "none" ∧
        ¬(((lookupAttr attrs "stroke").getD rootS) ≠ "none") then attrs ++ [("stroke", "none")]
    else attrs
  attrs1.filter (fun a => !((a.1 == "fill" || a.1 == "stroke") && !(a.2 == "none")))

/-- Following the claim's wording for the whole Hybrid rewrite: the rule is
applied to every shape element. -/
def specHybridRewrite (doc : SVGDoc) : List Item :=
  doc.items.map fun it =>
    match it with
    | Item.shape tag attrs => Item.shape tag (specHybridShape (rootFill doc) (rootStroke doc) attrs)
    | Item.defsB content =>
        Item.defsB (content.map (fun p => (p.1, specHybridShape (rootFill doc) (rootStroke doc) p.2)))
    | Item.otherEl attrs => Item.otherEl attrs

/-- A hybrid icon with a stroke-only path and a fill-only rect. -/
def hybridDoc : SVGDoc :=
  ⟨[], [Item.shape ShapeTag.path [("stroke", "#000"), ("d", "M0 0")],
    Item.shape ShapeTag.rect [("fill", "#000"), ("x", "1")]]⟩

/-- C8 counterexample: the claim's rule diverges from the filled branch on
`hybridDoc`.  The path has no own fill; the claim resolves it to the root
default `black` (a real fill), so no `fill="none"` may be added — but the
code, reading only own attributes, adds it.  The rect is fill-only, so the
claim adds `stroke="none"` — but the code's append regex covers only `path`
and `circle`, leaving the rect without it. -/
theorem c8_counterexample :
    extractInnerFilled hybridDoc.items =
      [Item.shape ShapeTag.path [("d", "M0 0"), ("fill", "none")],
        Item.shape ShapeTag.rect [("x", "1")]] ∧
    specHybridRewrite hybridDoc =
      [Item.shape ShapeTag.path [("d", "M0 0")],
        Item.shape ShapeTag.rect [("x", "1"), ("stroke", "none")]] ∧
    specHybridRewrite hybridDoc ≠ extractInnerFilled hybridDoc.items :=
  ⟨by decide, by decide, by decide⟩

/-- C8 amended: the filled branch reads only the element's own attributes
(no root-default resolution) and appends the `none` guards only on `path`
and `circle` elements; the strip pass then removes every fill/stroke whose
value does not start with `none` (keeping the literal `none` guards) on
every element, and leaves all other attributes in place. -/
theorem c8_filled_own_attr_rule (items : List Item) (i : Nat) (tag : ShapeTag)
    (attrs : List Attr) (h : items[i]? = some (Item.shape tag attrs)) :
    ∃ attrs2, (extractInnerFilled items)[i]? = some (Item.shape tag attrs2) ∧
      ((tag = ShapeTag.path ∨ tag = ShapeTag.circle) →
        hasRealAttr "stroke" attrs = true → hasRealAttr "fill" attrs = false →
        hasNoneLiteral "fill" attrs = false → ("fill", "none") ∈ attrs2) ∧
      ((tag = ShapeTag.path ∨ tag = ShapeTag.circle) →
        hasRealAttr "fill" attrs = true → hasRealAttr "stroke" attrs = false →
        hasNoneLiteral "stroke" attrs = false → ("stroke", "none") ∈ attrs2) ∧
      (∀ a ∈ attrs2, a.1 = "fill" ∨ a.1 = "stroke" → startsWithNone a.2 = true) ∧
      (∀ a ∈ attrs, a.1 ≠ "fill" → a.1 ≠ "stroke" → a ∈ attrs2) := by
  refine ⟨filledStripAttrs (filledAppendAttrs tag attrs), ?_, ?_, ?_, ?_, ?_⟩
  · unfold extractInnerFilled
    rw [List.getElem?_map, h]
    rfl
  · intro htag hrs hrf hnl
    unfold filledAppendAttrs
    rw [if_pos htag, if_pos (by simp [hrs, hrf, hnl])]
    unfold filledStripAttrs
    rw [List.mem_filter]
    exact ⟨List.mem_append_right _ (by simp), by simp [startsWithNone]⟩
  · intro htag hrf hrs hnl
    unfold filledAppendAttrs
    rw [if_pos htag, if_neg (by simp [hrs]), if_pos (by simp [hrs, hrf, hnl])]
    unfold filledStripAttrs
    rw [List.mem_filter]
    exact ⟨List.mem_append_right _ (by simp), by simp [startsWithNone]⟩
  · intro a ha hfs
    unfold filledStripAttrs at ha
    rw [List.mem_filter] at ha
    have hp := ha.2
    simp only [Bool.not_eq_true', Bool.and_eq_false_iff, Bool.or_eq_false_iff,
      Bool.not_eq_false, beq_eq_false_iff_ne] at hp
    rcases hp with ⟨hp1, hp2⟩ | hp
    · rcases hfs with hfs | hfs
      · exact absurd hfs hp1
      · exact absurd hfs hp2
    · simpa using hp
  · intro a ha hf hs
    unfold filledStripAttrs
    rw [List.mem_filter]
    refine ⟨?_, by simp [hf, hs]⟩
    unfold filledAppendAttrs
    split
    · split
      · exact List.mem_append_left _ ha
      · split
        · exact List.mem_append_left _ ha
        · exact ha
    · exact ha

/-- C8 witness: applying the amended rule to a stroke-only path. -/
theorem c8_filled_own_attr_rule_witness :
    ∃ attrs2,
      (extractInnerFilled [Item.shape ShapeTag.path [("stroke", "#000"), ("d", "M0 0")]])[0]? =
        some (Item.shape ShapeTag.path attrs2) ∧
      ((ShapeTag.path = ShapeTag.path ∨ ShapeTag.path = ShapeTag.circle) →
        hasRealAttr "stroke" [("stroke", "#000"), ("d", "M0 0")] = true →
        hasRealAttr "fill" [("stroke", "#000"), ("d", "M0 0")] = false →
        hasNoneLiteral "fill" [("stroke", "#000"), ("d", "M0 0")] = false →
        ("fill", "none") ∈ attrs2) ∧
      ((ShapeTag.path = ShapeTag.path ∨ ShapeTag.path = ShapeTag.circle) →
        hasRealAttr "fill" [("stroke", "#000"), ("d", "M0 0")] = true →
        hasRealAttr "stroke" [("stroke", "#000"), ("d", "M0 0")] = false →
        hasNoneLiteral "stroke" [("stroke", "#000"), ("d", "M0 0")] = false →
        ("stroke", "none") ∈ attrs2) ∧
      (∀ a ∈ attrs2, a.1 = "fill" ∨ a.1 = "stroke" → startsWithNone a.2 = true) ∧
      (∀ a ∈ [(("stroke" : String), ("#000" : String)), ("d", "M0 0")],
        a.1 ≠ "fill" → a.1 ≠ "stroke" → a ∈ attrs2) :=
  c8_filled_own_attr_rule [Item.shape ShapeTag.path [("stroke", "#000"), ("d", "M0 0")]]
    0 ShapeTag.path [("stroke", "#000"), ("d", "M0 0")] (by decide)
